import Mathlib

/-!
Verification of the kakeibo personal-finance backend.

The development shallowly embeds the core of the repository:
the ledger query engine (`database.py`, `expenses.py`) and the
category namespace manager (`database.py`, `categories.py`).
Python dictionaries/rows become Lean structures, SQLite tables become
lists of rows, and every fallible operation returns its result next to
the (possibly updated) store.  Machine floats used for amounts are
modelled as rationals; `TEXT` dates keep their `YYYY-MM-DD` string form
(SQLite compares them lexicographically, as Lean's `String` order does).
-/

namespace Kakeibo

/-- A row of the `expenses` table (`schema` implied by `database.py`).
`etype` is the `type` column, one of the strings `"expense"`/`"income"`. -/
structure Expense where
  id : Nat
  user_id : Nat
  amount : ℚ
  etype : String
  system_category_id : Option Nat
  user_category_id : Option Nat
  description : Option String
  date : String
  created_at : Nat
deriving DecidableEq, Repr

/-- The ledger part of the persistent store: the `expenses` table plus the
autoincrement counter and the clock used for `created_at`. -/
structure LedgerStore where
  expenses : List Expense
  nextId : Nat
  now : Nat
deriving DecidableEq, Repr

/-- The `WHERE e.id = ? AND e.user_id = ?` ownership test shared by
`get_expense_by_id`, `update_expense` and `delete_expense` in `database.py`. -/
def expenseMatches (eid uid : Nat) (e : Expense) : Bool :=
  e.id == eid && e.user_id == uid

/-- Embeds `database.get_expense_by_id`: select the row with the given id owned by
the given user; `None` when no such row exists. -/
def get_expense_by_id (eid uid : Nat) (es : List Expense) : Option Expense :=
  es.find? (expenseMatches eid uid)

/-- The optional fields of `database.update_expense` (each `None` means the
keyword argument was omitted). -/
structure UpdateFields where
  amount : Option ℚ
  expense_type : Option String
  system_category_id : Option Nat
  user_category_id : Option Nat
  description : Option String
  date : Option String
deriving DecidableEq, Repr

/-- Tests `not updates` in `database.update_expense`: no `SET` clause was built. -/
def UpdateFields.isEmpty (u : UpdateFields) : Bool :=
  u.amount.isNone && u.expense_type.isNone && u.system_category_id.isNone &&
    u.user_category_id.isNone && u.description.isNone && u.date.isNone

/-- The dynamically built `SET` clause of `database.update_expense`: each
field that was supplied (`is not None`) overwrites the stored column. -/
def applyUpdate (u : UpdateFields) (e : Expense) : Expense :=
  { e with
    amount := u.amount.getD e.amount
    etype := u.expense_type.getD e.etype
    system_category_id :=
      match u.system_category_id with
      | some v => some v
      | none => e.system_category_id
    user_category_id :=
      match u.user_category_id with
      | some v => some v
      | none => e.user_category_id
    description :=
      match u.description with
      | some v => some v
      | none => e.description
    date := u.date.getD e.date }

/-- Embeds `database.update_expense`: with no supplied field it returns `False`
without touching the store; otherwise it runs
`UPDATE ... WHERE id = ? AND user_id = ?` and returns whether any row
was affected (`rowcount`). -/
def update_expense (eid uid : Nat) (u : UpdateFields) (es : List Expense) :
    List Expense × Bool :=
  if u.isEmpty then (es, false)
  else
    (es.map (fun e => if expenseMatches eid uid e then applyUpdate u e else e),
     es.any (expenseMatches eid uid))

/-- Embeds `database.delete_expense`: `DELETE FROM expenses WHERE id = ? AND
user_id = ?`, returning whether any row was deleted. -/
def delete_expense (eid uid : Nat) (es : List Expense) : List Expense × Bool :=
  (es.filter (fun e => !(expenseMatches eid uid e)),
   es.any (expenseMatches eid uid))

/-- Embeds `database.create_expense`: insert a row with the server-assigned id and
timestamp, returning the new id. -/
def create_expense (uid : Nat) (amount : ℚ) (etype : String)
    (sys usr : Option Nat) (desc : Option String) (date : String)
    (s : LedgerStore) : LedgerStore × Nat :=
  (⟨s.expenses ++ [⟨s.nextId, uid, amount, etype, sys, usr, desc, date, s.now⟩],
    s.nextId + 1, s.now⟩,
   s.nextId)

/-- C1. Ownership isolation: a transaction id wholly owned by `u1 ≠ u2` (or
owned by nobody) is invisible to `u2`: reads return `none`, updates report
not-found and leave the table unchanged, deletes return `false` and leave
the table unchanged — for any guessed id. -/
theorem ownership_isolation (es : List Expense) (u1 u2 eid : Nat)
    (u : UpdateFields) (hne : u1 ≠ u2)
    (hown : ∀ e ∈ es, e.id = eid → e.user_id = u1) :
    get_expense_by_id eid u2 es = none ∧
    update_expense eid u2 u es = (es, false) ∧
    delete_expense eid u2 es = (es, false) := by
  have hmatch : ∀ e ∈ es, expenseMatches eid u2 e = false := by
    intro e he
    unfold expenseMatches
    by_cases hid : e.id = eid
    · have huser : e.user_id = u1 := hown e he hid
      simp [huser, hne]
    · simp [hid]
  have hany : es.any (expenseMatches eid u2) = false := by
    simp only [List.any_eq_false]
    intro e he
    simp [hmatch e he]
  refine ⟨?_, ?_, ?_⟩
  · unfold get_expense_by_id
    rw [List.find?_eq_none]
    intro e he
    simp [hmatch e he]
  · unfold update_expense
    by_cases hu : u.isEmpty
    · simp [hu]
    · simp only [hu, if_false, Bool.false_eq_true]
      rw [hany]
      congr 1
      have : ∀ e ∈ es,
          (if expenseMatches eid u2 e then applyUpdate u e else e) = e := by
        intro e he
        simp [hmatch e he]
      rw [List.map_congr_left this]
      exact List.map_id es
  · unfold delete_expense
    rw [hany]
    congr 1
    apply List.filter_eq_self.mpr
    intro e he
    simp [hmatch e he]

/-- Witness for C1 at a concrete one-row store. -/
theorem ownership_isolation_witness :
    get_expense_by_id 1 2
        [⟨1, 1, 5, "expense", none, none, none, "2024-01-01", 0⟩] = none :=
  (ownership_isolation
    [⟨1, 1, 5, "expense", none, none, none, "2024-01-01", 0⟩] 1 2 1
    ⟨none, none, none, none, none, none⟩ (by decide) (by decide)).1

/-- Allowed values of the `sort_by` query parameter (spec §4.1). -/
inductive SortBy where
  | date
  | amount
  | created_at
deriving DecidableEq, Repr

/-- Allowed values of the `order` query parameter (spec §4.1). -/
inductive SortOrder where
  | asc
  | desc
deriving DecidableEq, Repr

/-- Strict lexicographic comparison of two character lists by code point:
SQLite's default `memcmp` collation on the `TEXT` values this backend
stores (ASCII `YYYY-MM-DD` dates). -/
def lexLt : List Char → List Char → Bool
  | [], [] => false
  | [], _ :: _ => true
  | _ :: _, [] => false
  | a :: as, b :: bs =>
    if a.toNat < b.toNat then true
    else if b.toNat < a.toNat then false
    else lexLt as bs

theorem lexLt_asymm : ∀ {a b : List Char},
    lexLt a b = true → lexLt b a = false := by
  intro a
  induction a with
  | nil => intro b h; cases b <;> simp [lexLt]
  | cons x xs ih =>
    intro b h
    cases b with
    | nil => simp [lexLt] at h
    | cons y ys =>
      simp only [lexLt] at h ⊢
      rcases Nat.lt_trichotomy x.toNat y.toNat with hxy | hxy | hxy
      · rw [if_neg (Nat.lt_asymm hxy), if_pos hxy]
      · rw [if_neg (by omega), if_neg (by omega)] at h ⊢
        exact ih h
      · rw [if_neg (Nat.lt_asymm hxy), if_pos hxy] at h
        exact absurd h (by simp)

theorem lexLt_trans : ∀ {a b c : List Char},
    lexLt a b = true → lexLt b c = true → lexLt a c = true := by
  intro a
  induction a with
  | nil =>
    intro b c h1 h2
    cases b with
    | nil => simpa [lexLt] using h1
    | cons y ys =>
      cases c with
      | nil => simp [lexLt] at h2
      | cons z zs => simp [lexLt]
  | cons x xs ih =>
    intro b c h1 h2
    cases b with
    | nil => simp [lexLt] at h1
    | cons y ys =>
      cases c with
      | nil => simp [lexLt] at h2
      | cons z zs =>
        simp only [lexLt] at h1 h2 ⊢
        rcases Nat.lt_trichotomy x.toNat y.toNat with hxy | hxy | hxy <;>
          rcases Nat.lt_trichotomy y.toNat z.toNat with hyz | hyz | hyz
        all_goals
          first
            | (rw [if_pos (by omega)])
            | (rw [if_neg (by omega), if_neg (by omega)]
               rw [if_neg (by omega), if_neg (by omega)] at h1 h2
               exact ih h1 h2)
            | (rw [if_neg (by omega), if_pos (by omega)] at h1
               exact absurd h1 (by simp))
            | (rw [if_neg (by omega), if_pos (by omega)] at h2
               exact absurd h2 (by simp))

theorem lexLt_eq_of_not : ∀ {a b : List Char},
    lexLt a b = false → lexLt b a = false → a = b := by
  intro a
  induction a with
  | nil =>
    intro b h1 _
    cases b with
    | nil => rfl
    | cons y ys => simp [lexLt] at h1
  | cons x xs ih =>
    intro b h1 h2
    cases b with
    | nil => simp [lexLt] at h2
    | cons y ys =>
      simp only [lexLt] at h1 h2
      rcases Nat.lt_trichotomy x.toNat y.toNat with hxy | hxy | hxy
      · rw [if_pos hxy] at h1
        exact absurd h1 (by simp)
      · rw [if_neg (by omega), if_neg (by omega)] at h1 h2
        have hx : x = y := by
          have := congrArg Char.ofNat hxy
          rwa [Char.ofNat_toNat, Char.ofNat_toNat] at this
        rw [hx, ih h1 h2]
      · rw [if_pos hxy] at h2
        exact absurd h2 (by simp)

/-- The `ORDER BY e.date <dir>, e.id <dir>` pair order (TEXT collation on
the date, id tie-break). -/
def dateLe (a b : String × Nat) : Prop :=
  lexLt a.1.data b.1.data = true ∨ (a.1 = b.1 ∧ a.2 ≤ b.2)

instance dateLeDecidable (a b : String × Nat) : Decidable (dateLe a b) :=
  inferInstanceAs
    (Decidable (lexLt a.1.data b.1.data = true ∨ (a.1 = b.1 ∧ a.2 ≤ b.2)))

theorem string_eq_of_data_eq {a b : String} (h : a.data = b.data) : a = b := by
  cases a
  cases b
  exact congrArg String.mk h

theorem dateLe_total (a b : String × Nat) : dateLe a b ∨ dateLe b a := by
  cases hab : lexLt a.1.data b.1.data
  · cases hba : lexLt b.1.data a.1.data
    · have heq : a.1 = b.1 := string_eq_of_data_eq (lexLt_eq_of_not hab hba)
      rcases Nat.le_total a.2 b.2 with h2 | h2
      · exact Or.inl (Or.inr ⟨heq, h2⟩)
      · exact Or.inr (Or.inr ⟨heq.symm, h2⟩)
    · exact Or.inr (Or.inl hba)
  · exact Or.inl (Or.inl hab)

theorem dateLe_trans {a b c : String × Nat}
    (h1 : dateLe a b) (h2 : dateLe b c) : dateLe a c := by
  rcases h1 with h1 | ⟨he1, hi1⟩ <;> rcases h2 with h2 | ⟨he2, hi2⟩
  · exact Or.inl (lexLt_trans h1 h2)
  · exact Or.inl (he2 ▸ h1)
  · exact Or.inl (he1 ▸ h2)
  · exact Or.inr ⟨he1.trans he2, le_trans hi1 hi2⟩

theorem lexLt_irrefl : ∀ (l : List Char), lexLt l l = false := by
  intro l
  induction l with
  | nil => rfl
  | cons x xs ih => simp [lexLt, ih]

theorem dateLe_antisymm {a b : String × Nat}
    (h1 : dateLe a b) (h2 : dateLe b a) : a.2 = b.2 := by
  rcases h1 with h1 | ⟨he1, hi1⟩
  · rcases h2 with h2 | ⟨he2, hi2⟩
    · exact absurd h2 (by simp [lexLt_asymm h1])
    · rw [he2] at h1
      exact absurd h1 (by simp [lexLt_irrefl])
  · rcases h2 with h2 | ⟨he2, hi2⟩
    · rw [he1] at h2
      exact absurd h2 (by simp [lexLt_irrefl])
    · exact le_antisymm hi1 hi2

/-- Non-strict lexicographic order on a (sort-key, id) pair: the always-applied
id tie-break of the ordering contract. -/
def tieLe {α : Type} [LinearOrder α] (a b : α × Nat) : Prop :=
  a.1 < b.1 ∨ (a.1 = b.1 ∧ a.2 ≤ b.2)

instance tieLeDecidable {α : Type} [LinearOrder α] (a b : α × Nat) :
    Decidable (tieLe a b) :=
  inferInstanceAs (Decidable (a.1 < b.1 ∨ (a.1 = b.1 ∧ a.2 ≤ b.2)))

theorem tieLe_total {α : Type} [LinearOrder α] (a b : α × Nat) :
    tieLe a b ∨ tieLe b a := by
  rcases lt_trichotomy a.1 b.1 with h | h | h
  · exact Or.inl (Or.inl h)
  · rcases Nat.le_total a.2 b.2 with h2 | h2
    · exact Or.inl (Or.inr ⟨h, h2⟩)
    · exact Or.inr (Or.inr ⟨h.symm, h2⟩)
  · exact Or.inr (Or.inl h)

theorem tieLe_trans {α : Type} [LinearOrder α] {a b c : α × Nat}
    (h1 : tieLe a b) (h2 : tieLe b c) : tieLe a c := by
  rcases h1 with h1 | ⟨he1, hi1⟩ <;> rcases h2 with h2 | ⟨he2, hi2⟩
  · exact Or.inl (lt_trans h1 h2)
  · exact Or.inl (lt_of_lt_of_le h1 (le_of_eq he2))
  · exact Or.inl (lt_of_le_of_lt (le_of_eq he1) h2)
  · exact Or.inr ⟨he1.trans he2, le_trans hi1 hi2⟩

theorem tieLe_antisymm {α : Type} [LinearOrder α] {a b : α × Nat}
    (h1 : tieLe a b) (h2 : tieLe b a) : a.2 = b.2 := by
  rcases h1 with h1 | ⟨he1, hi1⟩
  · rcases h2 with h2 | ⟨he2, hi2⟩
    · exact absurd h2 (lt_asymm h1)
    · exact absurd he2 (ne_of_gt h1)
  · rcases h2 with h2 | ⟨he2, hi2⟩
    · exact absurd h2 (by rw [he1]; exact lt_irrefl _)
    · exact le_antisymm hi1 hi2

/-- The `ORDER BY <sort column> <dir>, e.id <dir>` relation of the list
operation: primary key is the requested column, the always-applied
secondary tie-break is the row id, in the same direction. -/
def sortRel (sb : SortBy) (ord : SortOrder) (e1 e2 : Expense) : Prop :=
  match sb, ord with
  | .date, .asc => dateLe (e1.date, e1.id) (e2.date, e2.id)
  | .date, .desc => dateLe (e2.date, e2.id) (e1.date, e1.id)
  | .amount, .asc => tieLe (e1.amount, e1.id) (e2.amount, e2.id)
  | .amount, .desc => tieLe (e2.amount, e2.id) (e1.amount, e1.id)
  | .created_at, .asc => tieLe (e1.created_at, e1.id) (e2.created_at, e2.id)
  | .created_at, .desc => tieLe (e2.created_at, e2.id) (e1.created_at, e1.id)

instance sortRelDecidable (sb : SortBy) (ord : SortOrder) :
    DecidableRel (sortRel sb ord) := fun e1 e2 =>
  match sb, ord with
  | .date, .asc =>
      inferInstanceAs (Decidable (dateLe (e1.date, e1.id) (e2.date, e2.id)))
  | .date, .desc =>
      inferInstanceAs (Decidable (dateLe (e2.date, e2.id) (e1.date, e1.id)))
  | .amount, .asc =>
      inferInstanceAs (Decidable (tieLe (e1.amount, e1.id) (e2.amount, e2.id)))
  | .amount, .desc =>
      inferInstanceAs (Decidable (tieLe (e2.amount, e2.id) (e1.amount, e1.id)))
  | .created_at, .asc =>
      inferInstanceAs
        (Decidable (tieLe (e1.created_at, e1.id) (e2.created_at, e2.id)))
  | .created_at, .desc =>
      inferInstanceAs
        (Decidable (tieLe (e2.created_at, e2.id) (e1.created_at, e1.id)))

instance sortRelTotal (sb : SortBy) (ord : SortOrder) :
    IsTotal Expense (sortRel sb ord) where
  total a b := by
    cases sb <;> cases ord <;> simp only [sortRel] <;>
      first
        | exact tieLe_total _ _
        | exact dateLe_total _ _

instance sortRelTrans (sb : SortBy) (ord : SortOrder) :
    IsTrans Expense (sortRel sb ord) where
  trans a b c := by
    cases sb <;> cases ord <;> simp only [sortRel] <;>
      · intro h1 h2
        first
          | exact tieLe_trans h1 h2
          | exact tieLe_trans h2 h1
          | exact dateLe_trans h1 h2
          | exact dateLe_trans h2 h1

theorem sortRel_antisymm_id {sb : SortBy} {ord : SortOrder} {a b : Expense}
    (h1 : sortRel sb ord a b) (h2 : sortRel sb ord b a) : a.id = b.id := by
  cases sb <;> cases ord <;>
    first
      | exact tieLe_antisymm h1 h2
      | exact tieLe_antisymm h2 h1
      | exact dateLe_antisymm h1 h2
      | exact dateLe_antisymm h2 h1

/-- The optional filters of `get_user_expenses` (those its caller
`expenses.list_expenses` extracts from the query string). -/
structure ExpenseFilters where
  start_date : Option String
  end_date : Option String
  system_category_id : Option Nat
  user_category_id : Option Nat
  expense_type : Option String
deriving DecidableEq, Repr

/-- The conditionally built `WHERE` clause of `database.get_user_expenses`:
mandatory user scoping plus one conjunct per Python-truthy filter
(`if start_date:` etc. — `None`, the empty string and `0` all skip the
conjunct). -/
def filterPred (uid : Nat) (f : ExpenseFilters) (e : Expense) : Bool :=
  (e.user_id == uid)
  && (match f.start_date with
      | none => true
      | some d => if d = "" then true else !(lexLt e.date.data d.data))
  && (match f.end_date with
      | none => true
      | some d => if d = "" then true else !(lexLt d.data e.date.data))
  && (match f.system_category_id with
      | none => true
      | some c => if c = 0 then true else e.system_category_id == some c)
  && (match f.user_category_id with
      | none => true
      | some c => if c = 0 then true else e.user_category_id == some c)
  && (match f.expense_type with
      | none => true
      | some t => if t = "" then true else e.etype == t)

/-- Modelled from the spec: the final, pagination- and sort-capable
`get_user_expenses` is absent from `src/` — `src/database.py` holds an
earlier version without `page`/`per_page`/`total_count`, while its caller
(`expenses.list_expenses`) and its tests
(`tests/test_database.py`, pagination block) invoke it with
`page`/`per_page` and read back `{'expenses': ..., 'total_count': ...}`.
Following spec §4.1: records matching the filters are counted before
pagination, ordered by the requested sort column with the row id as the
always-applied tie-break in the same direction, and the page is the slice
at `OFFSET (page - 1) * per_page` of length `LIMIT per_page`.
The filter semantics is taken from the version in `src/database.py`. -/
def get_user_expenses (uid : Nat) (f : ExpenseFilters) (sb : SortBy)
    (ord : SortOrder) (page per_page : Nat) (es : List Expense) :
    List Expense × Nat :=
  let matching := es.filter (filterPred uid f)
  let sorted := List.insertionSort (sortRel sb ord) matching
  ((sorted.drop ((page - 1) * per_page)).take per_page, matching.length)

theorem take_add_eq_append {α : Type} :
    ∀ (l : List α) (m n : Nat), l.take (m + n) = l.take m ++ (l.drop m).take n
  | [], _, _ => by simp
  | _ :: _, 0, _ => by simp
  | a :: t, m + 1, n => by
    simp only [Nat.add_right_comm m 1 n, List.take_succ_cons, List.drop_succ_cons,
      List.cons_append, List.cons.injEq, true_and]
    exact take_add_eq_append t m n

/-- Walking consecutive pages of size `pp` concatenates to a prefix of the
underlying list. -/
theorem pages_flatten {α : Type} (pp : Nat) :
    ∀ (P : Nat) (l : List α),
      ((List.range P).map (fun i => (l.drop (i * pp)).take pp)).flatten =
        l.take (P * pp) := by
  intro P
  induction P with
  | zero => intro l; simp
  | succ P ih =>
    intro l
    rw [List.range_succ_eq_map, List.map_cons, List.map_map]
    have hcomp :
        ((fun i => (l.drop (i * pp)).take pp) ∘ Nat.succ) =
          fun i => ((l.drop pp).drop (i * pp)).take pp := by
      funext i
      simp only [Function.comp_apply, List.drop_drop]
      rw [Nat.succ_mul, Nat.add_comm (i * pp) pp]
    rw [hcomp, List.flatten_cons, ih (l.drop pp), Nat.zero_mul, List.drop_zero,
      Nat.succ_mul, Nat.add_comm (P * pp) pp, take_add_eq_append]

theorem le_ceil_mul (a pp : Nat) (h : 0 < pp) :
    a ≤ ((a + pp - 1) / pp) * pp := by
  have hlt : a + pp - 1 < ((a + pp - 1) / pp + 1) * pp :=
    (Nat.div_lt_iff_lt_mul h).1 (Nat.lt_succ_self _)
  rw [Nat.add_mul, Nat.one_mul] at hlt
  generalize ((a + pp - 1) / pp) * pp = M at hlt ⊢
  omega

/-- C2. Pagination contract of `list`: the page is the slice of the filtered,
ordered sequence at offset `(page - 1) * per_page`, holds at most `per_page`
items; `total_count` is the number of matching records ignoring pagination
(so a page beyond the data is empty while `total_count` is unaffected); and
walking all `⌈total_count / per_page⌉` pages exhaustively yields exactly
`total_count` items. -/
theorem pagination_contract (uid : Nat) (f : ExpenseFilters) (sb : SortBy)
    (ord : SortOrder) (page per_page : Nat) (es : List Expense)
    (hpage : 1 ≤ page) (hpp1 : 1 ≤ per_page) (hpp2 : per_page ≤ 100) :
    (get_user_expenses uid f sb ord page per_page es).1 =
      ((List.insertionSort (sortRel sb ord) (es.filter (filterPred uid f))).drop
        ((page - 1) * per_page)).take per_page ∧
    (get_user_expenses uid f sb ord page per_page es).2 =
      (es.filter (filterPred uid f)).length ∧
    (get_user_expenses uid f sb ord page per_page es).1.length ≤ per_page ∧
    ((es.filter (filterPred uid f)).length ≤ (page - 1) * per_page →
      (get_user_expenses uid f sb ord page per_page es).1 = []) ∧
    ((List.range (((es.filter (filterPred uid f)).length + per_page - 1) /
          per_page)).map
        (fun i =>
          (get_user_expenses uid f sb ord (i + 1) per_page es).1.length)).sum =
      (es.filter (filterPred uid f)).length := by
  have hsortlen :
      (List.insertionSort (sortRel sb ord) (es.filter (filterPred uid f))).length =
        (es.filter (filterPred uid f)).length :=
    (List.perm_insertionSort (sortRel sb ord) (es.filter (filterPred uid f))).length_eq
  refine ⟨rfl, rfl, ?_, ?_, ?_⟩
  · exact List.length_take_le _ _
  · intro hbeyond
    unfold get_user_expenses
    simp only
    rw [List.drop_eq_nil_of_le (by rw [hsortlen]; exact hbeyond), List.take_nil]
  · have heach : ∀ i, (get_user_expenses uid f sb ord (i + 1) per_page es).1 =
        ((List.insertionSort (sortRel sb ord)
          (es.filter (filterPred uid f))).drop (i * per_page)).take per_page := by
      intro i
      unfold get_user_expenses
      simp
    have hmapeq :
        (List.range (((es.filter (filterPred uid f)).length + per_page - 1) /
            per_page)).map
          (fun i =>
            (get_user_expenses uid f sb ord (i + 1) per_page es).1.length) =
        (List.range (((es.filter (filterPred uid f)).length + per_page - 1) /
            per_page)).map
          (fun i =>
            (((List.insertionSort (sortRel sb ord)
              (es.filter (filterPred uid f))).drop (i * per_page)).take
                per_page).length) := by
      apply List.map_congr_left
      intro i _
      rw [heach i]
    rw [hmapeq]
    show (List.map (List.length ∘ fun i =>
        ((List.insertionSort (sortRel sb ord)
          (es.filter (filterPred uid f))).drop (i * per_page)).take per_page)
        (List.range (((es.filter (filterPred uid f)).length + per_page - 1) /
          per_page))).sum =
      (es.filter (filterPred uid f)).length
    rw [← List.map_map, ← List.length_flatten, pages_flatten,
      List.length_take, hsortlen]
    exact Nat.min_eq_right (le_ceil_mul _ _ hpp1)

/-- Witness for C2 at a concrete store: three matching rows, page 2 of
size 2. -/
theorem pagination_contract_witness :
    (get_user_expenses 1 ⟨none, none, none, none, none⟩ .date .desc 2 2
        [⟨1, 1, 5, "expense", none, none, none, "2024-01-01", 0⟩,
         ⟨2, 1, 6, "expense", none, none, none, "2024-01-02", 1⟩,
         ⟨3, 1, 7, "income", none, none, none, "2024-01-03", 2⟩]).2 =
      (([⟨1, 1, 5, "expense", none, none, none, "2024-01-01", 0⟩,
         ⟨2, 1, 6, "expense", none, none, none, "2024-01-02", 1⟩,
         ⟨3, 1, 7, "income", none, none, none, "2024-01-03", 2⟩] :
          List Expense).filter (filterPred 1 ⟨none, none, none, none, none⟩)).length :=
  (pagination_contract 1 ⟨none, none, none, none, none⟩ .date .desc 2 2
    [⟨1, 1, 5, "expense", none, none, none, "2024-01-01", 0⟩,
     ⟨2, 1, 6, "expense", none, none, none, "2024-01-02", 1⟩,
     ⟨3, 1, 7, "income", none, none, none, "2024-01-03", 2⟩]
    (by decide) (by decide) (by decide)).2.1

/-- Two sorted permutations of the same multiset of rows coincide whenever the
row ids are distinct (the id tie-break makes the order antisymmetric on such
lists). -/
theorem sorted_perm_eq_of_nodup_ids {sb : SortBy} {ord : SortOrder} :
    ∀ {l1 l2 : List Expense}, l1.Perm l2 →
      List.Sorted (sortRel sb ord) l1 → List.Sorted (sortRel sb ord) l2 →
      (l1.map Expense.id).Nodup → l1 = l2 := by
  intro l1
  induction l1 with
  | nil =>
    intro l2 hp _ _ _
    exact (List.Perm.nil_eq hp).symm ▸ rfl
  | cons a t ih =>
    intro l2 hp hs1 hs2 hnd
    cases l2 with
    | nil => exact absurd hp.symm (by simp)
    | cons b t2 =>
      have hab : a = b := by
        have ha2 : a ∈ b :: t2 := hp.mem_iff.mp (List.mem_cons_self a t)
        have hb1 : b ∈ a :: t := hp.mem_iff.mpr (List.mem_cons_self b t2)
        rcases List.mem_cons.mp ha2 with h | ha2'
        · exact h
        rcases List.mem_cons.mp hb1 with h | hb1'
        · exact h.symm
        have hrab : sortRel sb ord a b := (List.sorted_cons.mp hs1).1 b hb1'
        have hrba : sortRel sb ord b a := (List.sorted_cons.mp hs2).1 a ha2'
        have hid : a.id = b.id := sortRel_antisymm_id hrab hrba
        exfalso
        have hmem : b.id ∈ t.map Expense.id := List.mem_map_of_mem _ hb1'
        have hnotin : a.id ∉ t.map Expense.id :=
          (List.nodup_cons.mp (by simpa using hnd)).1
        exact hnotin (hid ▸ hmem)
      subst hab
      have hp' : t.Perm t2 := hp.cons_inv
      have htail : t = t2 :=
        ih hp' hs1.of_cons hs2.of_cons (List.Nodup.of_cons (by simpa using hnd))
      rw [htail]

/-- C3. Ordering contract of `list`: for every user, filters, sort column and
direction, the returned page is sorted by the requested column with the row id
as the always-applied tie-break in the same direction; the underlying full
ordering is a permutation of the filtered rows; and (given the ids are unique,
as for a database primary key) it is the unique such sorted arrangement, so
repeated calls with identical filters reproduce the same order even when the
primary sort column has duplicates. -/
theorem ordering_contract (uid : Nat) (f : ExpenseFilters) (sb : SortBy)
    (ord : SortOrder) (page per_page : Nat) (es : List Expense)
    (hnd : ((es.filter (filterPred uid f)).map Expense.id).Nodup) :
    List.Sorted (sortRel sb ord)
      (get_user_expenses uid f sb ord page per_page es).1 ∧
    (List.insertionSort (sortRel sb ord)
        (es.filter (filterPred uid f))).Perm (es.filter (filterPred uid f)) ∧
    (∀ l : List Expense, l.Perm (es.filter (filterPred uid f)) →
      List.Sorted (sortRel sb ord) l →
      l = List.insertionSort (sortRel sb ord) (es.filter (filterPred uid f))) := by
  have hsorted : List.Sorted (sortRel sb ord)
      (List.insertionSort (sortRel sb ord) (es.filter (filterPred uid f))) :=
    List.sorted_insertionSort (sortRel sb ord) (es.filter (filterPred uid f))
  have hperm : (List.insertionSort (sortRel sb ord)
      (es.filter (filterPred uid f))).Perm (es.filter (filterPred uid f)) :=
    List.perm_insertionSort (sortRel sb ord) (es.filter (filterPred uid f))
  refine ⟨?_, hperm, ?_⟩
  · unfold get_user_expenses
    simp only
    exact List.Pairwise.sublist
      ((List.take_sublist _ _).trans (List.drop_sublist _ _)) hsorted
  · intro l hl hsl
    apply sorted_perm_eq_of_nodup_ids (hl.trans hperm.symm) hsl hsorted
    exact (hl.map Expense.id).nodup_iff.mpr hnd

/-- Witness for C3 at a concrete store with a duplicated date (spec §8's
example: dates 01-01, 01-05, 01-03 plus a duplicate of 01-03). -/
theorem ordering_contract_witness :
    List.Sorted (sortRel .date .desc)
      (get_user_expenses 1 ⟨none, none, none, none, none⟩ .date .desc 1 20
        [⟨1, 1, 5, "expense", none, none, none, "2024-01-01", 0⟩,
         ⟨2, 1, 6, "expense", none, none, none, "2024-01-05", 1⟩,
         ⟨3, 1, 7, "expense", none, none, none, "2024-01-03", 2⟩,
         ⟨4, 1, 8, "expense", none, none, none, "2024-01-03", 3⟩]).1 :=
  (ordering_contract 1 ⟨none, none, none, none, none⟩ .date .desc 1 20
    [⟨1, 1, 5, "expense", none, none, none, "2024-01-01", 0⟩,
     ⟨2, 1, 6, "expense", none, none, none, "2024-01-05", 1⟩,
     ⟨3, 1, 7, "expense", none, none, none, "2024-01-03", 2⟩,
     ⟨4, 1, 8, "expense", none, none, none, "2024-01-03", 3⟩]
    (by decide)).1

/-- Python `str.strip()` on a list of characters: drop leading and trailing
whitespace. -/
def pyStrip (l : List Char) : List Char :=
  ((l.dropWhile Char.isWhitespace).reverse.dropWhile Char.isWhitespace).reverse

/-- Python `str.strip()` on a `String`. -/
def pyStripS (s : String) : String :=
  ⟨pyStrip s.data⟩

/-- The `^\d{4}-\d{2}-\d{2}$` regex of the expense routes. -/
def isValidDateFormat (s : String) : Bool :=
  match s.data with
  | [y1, y2, y3, y4, h1, m1, m2, h2, d1, d2] =>
    y1.isDigit && y2.isDigit && y3.isDigit && y4.isDigit && h1 == '-' &&
      m1.isDigit && m2.isDigit && h2 == '-' && d1.isDigit && d2.isDigit
  | _ => false

/-- Python truthiness of an optional integer (`None` and `0` are falsy). -/
def optNatTruthy : Option Nat → Bool
  | none => false
  | some n => !(n == 0)

/-- The JSON body of `POST /expenses` after Flask's parsing: the values the
route reads with `data.get(...)`. -/
structure CreateReq where
  amount : Option ℚ
  expense_type : Option String
  date : Option String
  system_category_id : Option Nat
  user_category_id : Option Nat
  description : Option String
deriving DecidableEq, Repr

/-- Embeds `expenses.create_new_expense` (the `POST /expenses` route): required-field
truthiness check, amount positivity, type enum, date format and the
both-categories rejection, then the insert followed by a read-back.
The result is the HTTP error status or the id of the inserted row. -/
def create_new_expense (uid : Nat) (req : CreateReq) (s : LedgerStore) :
    LedgerStore × Except Nat Nat :=
  match req.amount, req.expense_type, req.date with
  | some a, some t, some d =>
    if a == 0 || t == "" || d == "" then (s, .error 400)
    else if a ≤ 0 then (s, .error 400)
    else if !(t == "expense") && !(t == "income") then (s, .error 400)
    else if !(isValidDateFormat d) then (s, .error 400)
    else if optNatTruthy req.system_category_id &&
        optNatTruthy req.user_category_id then (s, .error 400)
    else
      let desc := pyStripS (req.description.getD "")
      let (s', eid) := create_expense uid a t req.system_category_id
        req.user_category_id (if desc = "" then none else some desc) d s
      (s', .ok eid)
  | _, _, _ => (s, .error 400)

/-- Embeds `expenses.update_expense_route` (the `PUT /expenses/<id>` route):
field-wise validation of whatever was supplied, the both-categories
rejection, then `update_expense` with ownership check; `False` from the
store layer surfaces as 404, success re-reads the row. -/
def update_expense_route (eid uid : Nat) (req : UpdateFields)
    (s : LedgerStore) : LedgerStore × Except Nat (Option Expense) :=
  if (match req.amount with
      | some a => decide (a ≤ 0)
      | none => false) then (s, .error 400)
  else if (match req.expense_type with
      | some t => !(t == "") && !(t == "expense") && !(t == "income")
      | none => false) then (s, .error 400)
  else if (match req.date with
      | some d => !(d == "") && !(isValidDateFormat d)
      | none => false) then (s, .error 400)
  else if optNatTruthy req.system_category_id &&
      optNatTruthy req.user_category_id then (s, .error 400)
  else
    let (es', ok) := update_expense eid uid req s.expenses
    if !ok then ({ s with expenses := es' }, .error 404)
    else ({ s with expenses := es' }, .ok (get_expense_by_id eid uid es'))

/-- Embeds the summary sums of
`expenses.list_expenses`. -/
def sumAmounts (t : String) (l : List Expense) : ℚ :=
  (l.filter (fun e => e.etype == t)).foldl (fun acc e => acc + e.amount) 0

/-- The JSON body produced by `GET /expenses`. -/
structure ListResponse where
  expenses : List Expense
  page : Nat
  per_page : Nat
  total_items : Nat
  total_pages : Nat
  has_previous : Bool
  has_next : Bool
  count : Nat
  total_expenses : ℚ
  total_income : ℚ
  net : ℚ
deriving DecidableEq, Repr

/-- Embeds `expenses.list_expenses` (the `GET /expenses` route): clamp pagination,
validate the `type` filter, fetch the page and `total_count` from
`get_user_expenses` (the route passes no sort parameters, so the spec
defaults `date`/`desc` apply), then compute the pagination metadata and the
summary figures from the page that was returned. -/
def list_expenses (uid : Nat) (page0 per_page0 : Nat) (f : ExpenseFilters)
    (es : List Expense) : Except Nat ListResponse :=
  let page := max 1 page0
  let pp := max 1 (min 100 per_page0)
  if (match f.expense_type with
      | some t => !(t == "") && !(t == "expense") && !(t == "income")
      | none => false) then .error 400
  else
    let res := get_user_expenses uid f .date .desc page pp es
    let total_pages := (res.2 + pp - 1) / pp
    .ok
      { expenses := res.1
        page := page
        per_page := pp
        total_items := res.2
        total_pages := total_pages
        has_previous := decide (1 < page)
        has_next := decide (page < total_pages)
        count := res.1.length
        total_expenses := sumAmounts "expense" res.1
        total_income := sumAmounts "income" res.1
        net := sumAmounts "income" res.1 - sumAmounts "expense" res.1 }

/-- C7. A transaction-create request whose amount is `0` or negative fails
with an InvalidInput-class error (HTTP 400) and the store is returned
untouched: the rejection happens before any store call. -/
theorem create_nonpositive_amount_rejected (uid : Nat) (req : CreateReq)
    (s : LedgerStore) (a : ℚ) (ha : req.amount = some a) (hle : a ≤ 0) :
    create_new_expense uid req s = (s, .error 400) := by
  unfold create_new_expense
  rw [ha]
  cases ht : req.expense_type with
  | none => rfl
  | some t =>
    cases hd : req.date with
    | none => rfl
    | some d =>
      simp only
      by_cases h0 : a == 0 || t == "" || d == ""
      · rw [if_pos h0]
      · rw [if_neg h0, if_pos hle]

/-- Witness for C7: the spec's `amount = -5` example against a concrete
store. -/
theorem create_nonpositive_amount_rejected_witness :
    create_new_expense 1
        ⟨some (-5), some "expense", some "2024-01-15", none, none, none⟩
        ⟨[], 1, 0⟩ =
      (⟨[], 1, 0⟩, .error 400) :=
  create_nonpositive_amount_rejected 1
    ⟨some (-5), some "expense", some "2024-01-15", none, none, none⟩
    ⟨[], 1, 0⟩ (-5) (by rfl) (by norm_num)

/-- C5 counterexample: the claim says a zero-field update "reports success
exactly when the record exists and is owned by the caller", but on a store
holding a record with id 1 owned by user 1 a zero-field update by user 1
still reports failure (`False`, surfaced as not-found). -/
theorem zero_field_update_counterexample :
    (⟨1, 1, 5, "expense", none, none, none, "2024-01-01", 0⟩ : Expense).id = 1 ∧
    (⟨1, 1, 5, "expense", none, none, none, "2024-01-01", 0⟩ : Expense).user_id = 1 ∧
    update_expense 1 1 ⟨none, none, none, none, none, none⟩
        [⟨1, 1, 5, "expense", none, none, none, "2024-01-01", 0⟩] =
      ([⟨1, 1, 5, "expense", none, none, none, "2024-01-01", 0⟩], false) := by
  refine ⟨rfl, rfl, ?_⟩
  rfl

/-- C5 (amended). A zero-field update is a no-op on the store and always
reports failure (the same not-found outcome as for a missing record), even
when the record exists and is owned by the caller; and an update of a record
not owned by the caller likewise leaves the store unchanged and reports the
same not-found outcome as a non-existent record. -/
theorem zero_field_or_unowned_update (es : List Expense) (eid uid : Nat)
    (u : UpdateFields)
    (h : u.isEmpty = true ∨ (∀ e ∈ es, e.id = eid → e.user_id ≠ uid)) :
    update_expense eid uid u es = (es, false) := by
  rcases h with h | h
  · unfold update_expense
    rw [if_pos h]
  · by_cases hu : u.isEmpty
    · unfold update_expense
      rw [if_pos hu]
    · have hmatch : ∀ e ∈ es, expenseMatches eid uid e = false := by
        intro e he
        unfold expenseMatches
        by_cases hid : e.id = eid
        · simp [hid, h e he hid]
        · simp [hid]
      unfold update_expense
      rw [if_neg hu]
      have hany : es.any (expenseMatches eid uid) = false := by
        simp only [List.any_eq_false]
        intro e he
        simp [hmatch e he]
      rw [hany]
      congr 1
      have : ∀ e ∈ es,
          (if expenseMatches eid uid e then applyUpdate u e else e) = e := by
        intro e he
        simp [hmatch e he]
      rw [List.map_congr_left this]
      exact List.map_id es

/-- Witness for C5: a zero-field update on an existing owned record. -/
theorem zero_field_or_unowned_update_witness :
    update_expense 1 1 ⟨none, none, none, none, none, none⟩
        [⟨1, 1, 5, "expense", none, none, none, "2024-01-01", 0⟩] =
      ([⟨1, 1, 5, "expense", none, none, none, "2024-01-01", 0⟩], false) :=
  zero_field_or_unowned_update
    [⟨1, 1, 5, "expense", none, none, none, "2024-01-01", 0⟩] 1 1
    ⟨none, none, none, none, none, none⟩ (Or.inl (by decide))

/-- The category-reference exclusivity invariant of spec §3: no stored
transaction references both a system and a user category. -/
def exclusiveInv (es : List Expense) : Prop :=
  ∀ e ∈ es, e.system_category_id = none ∨ e.user_category_id = none

instance (es : List Expense) : Decidable (exclusiveInv es) :=
  inferInstanceAs (Decidable (∀ e ∈ es, _ ∨ _))

/-- C4 counterexample: starting from an empty store, create a transaction
with only `user_category_id` set, then update it supplying only
`system_category_id` (exactly the scenario the claim says must not leave
both set): the stored row ends up referencing both categories. -/
theorem category_exclusivity_counterexample :
    ((update_expense_route 1 7 ⟨none, none, some 2, none, none, none⟩
        (create_new_expense 7
          ⟨some 5, some "expense", some "2024-01-15", none, some 5, none⟩
          ⟨[], 1, 0⟩).1).1.expenses.map
      (fun e => e.system_category_id.isSome && e.user_category_id.isSome)) =
    [true] := by
  decide

/-- C4 (amended). Creation maintains category-reference exclusivity (for
requests whose supplied category ids are valid, i.e. not the never-assigned
id 0: supplying both is rejected with 400, otherwise at most one reference
is stored); but the invariant is not preserved by update: updating
`system_category_id` on a record whose `user_category_id` is already set
leaves both set, as witnessed by the concrete run in the second conjunct. -/
theorem category_exclusivity_amended :
    (∀ (uid : Nat) (req : CreateReq) (s : LedgerStore),
      exclusiveInv s.expenses →
      req.system_category_id ≠ some 0 → req.user_category_id ≠ some 0 →
      exclusiveInv (create_new_expense uid req s).1.expenses) ∧
    ¬ exclusiveInv
      ((update_expense_route 1 7 ⟨none, none, some 2, none, none, none⟩
        (create_new_expense 7
          ⟨some 5, some "expense", some "2024-01-15", none, some 5, none⟩
          ⟨[], 1, 0⟩).1).1.expenses) := by
  constructor
  · intro uid req s hinv hz1 hz2
    unfold create_new_expense
    cases ha : req.amount with
    | none => cases req.expense_type <;> cases req.date <;> exact hinv
    | some a =>
      cases ht : req.expense_type with
      | none => cases req.date <;> exact hinv
      | some t =>
        cases hd : req.date with
        | none => exact hinv
        | some d =>
          simp only
          split_ifs with h1 h2 h3 h4 h5 h6
          · exact hinv
          · exact hinv
          · exact hinv
          · exact hinv
          · exact hinv
          all_goals
            intro e he
            simp only [create_expense, List.mem_append, List.mem_singleton] at he
            rcases he with he' | he'
            · exact hinv e he'
            · subst he'
              cases hs : req.system_category_id with
              | none => exact Or.inl rfl
              | some n =>
                cases hu : req.user_category_id with
                | none => exact Or.inr rfl
                | some m =>
                  exfalso
                  apply h5
                  have hn : ¬(n = 0) := fun h => hz1 (by rw [hs, h])
                  have hm : ¬(m = 0) := fun h => hz2 (by rw [hu, h])
                  simp [optNatTruthy, hs, hu, hn, hm]
  · decide

/-- Witness for C4 (amended): a create with only a user category keeps the
invariant on a concrete store. -/
theorem category_exclusivity_amended_witness :
    exclusiveInv
      (create_new_expense 7
        ⟨some 5, some "expense", some "2024-01-15", none, some 5, none⟩
        ⟨[], 1, 0⟩).1.expenses :=
  category_exclusivity_amended.1 7
    ⟨some 5, some "expense", some "2024-01-15", none, some 5, none⟩
    ⟨[], 1, 0⟩ (by decide) (by decide) (by decide)

/-- A two-row store used to separate page totals from full-filtered totals:
both rows match the empty filter, but a page of size 1 holds only one. -/
def twoExpenseStore : List Expense :=
  [⟨1, 1, 20, "expense", none, none, none, "2024-01-02", 0⟩,
   ⟨2, 1, 10, "expense", none, none, none, "2024-01-01", 1⟩]

/-- C10. The summary figures of the list response are computed over the items
of the returned page only: `total_expenses`/`total_income`/`net` always equal
the sums over `r.expenses` (the page); and on a concrete store where the page
is a strict subset of the matching records they differ from the totals over
the full filtered set (page total 20 versus full total 30). -/
theorem summary_over_page_only :
    (∀ (uid page0 pp0 : Nat) (f : ExpenseFilters) (es : List Expense),
      (list_expenses uid page0 pp0 f es).map
          (fun r => (r.total_expenses, r.total_income, r.net)) =
        (list_expenses uid page0 pp0 f es).map
          (fun r =>
            (sumAmounts "expense" r.expenses, sumAmounts "income" r.expenses,
             sumAmounts "income" r.expenses - sumAmounts "expense" r.expenses))) ∧
    (list_expenses 1 1 1 ⟨none, none, none, none, none⟩ twoExpenseStore).map
        (fun r => r.total_expenses) =
      .ok (sumAmounts "expense"
        [⟨1, 1, 20, "expense", none, none, none, "2024-01-02", 0⟩]) ∧
    (list_expenses 1 1 1 ⟨none, none, none, none, none⟩ twoExpenseStore).map
        (fun r => r.expenses.length) = .ok 1 ∧
    sumAmounts "expense"
        [⟨1, 1, 20, "expense", none, none, none, "2024-01-02", 0⟩] = 20 ∧
    sumAmounts "expense"
        (twoExpenseStore.filter (filterPred 1 ⟨none, none, none, none, none⟩)) =
      30 ∧
    (20 : ℚ) ≠ 30 ∧
    (twoExpenseStore.filter (filterPred 1 ⟨none, none, none, none, none⟩)).length =
      2 := by
  refine ⟨?_, by rfl, by rfl, by norm_num [sumAmounts],
    by norm_num [sumAmounts, twoExpenseStore, filterPred], by norm_num, by rfl⟩
  intro uid page0 pp0 f es
  unfold list_expenses
  simp only
  split_ifs <;> rfl

theorem toNat_ofNat_valid {n : Nat} (h : n.isValidChar) :
    (Char.ofNat n).toNat = n := by
  unfold Char.ofNat
  rw [dif_pos h]
  rfl

theorem char_eq_of_toNat_eq {a b : Char} (h : a.toNat = b.toNat) : a = b := by
  have := congrArg Char.ofNat h
  rwa [Char.ofNat_toNat, Char.ofNat_toNat] at this

theorem toUpper_toNat (c : Char) :
    (Char.toUpper c).toNat =
      if 97 ≤ c.toNat ∧ c.toNat ≤ 122 then c.toNat - 32 else c.toNat := by
  unfold Char.toUpper
  show (if c.toNat ≥ 97 ∧ c.toNat ≤ 122 then Char.ofNat (c.toNat - 32)
    else c).toNat = _
  split_ifs with h
  · exact toNat_ofNat_valid (Or.inl (by omega))
  · rfl

theorem isWhitespace_iff (c : Char) :
    c.isWhitespace = true ↔
      c.toNat = 32 ∨ c.toNat = 9 ∨ c.toNat = 13 ∨ c.toNat = 10 := by
  unfold Char.isWhitespace
  simp only [Bool.or_eq_true, decide_eq_true_eq]
  constructor
  · rintro (((h | h) | h) | h) <;> subst h <;> decide
  · rintro (h | h | h | h)
    · exact Or.inl (Or.inl (Or.inl (char_eq_of_toNat_eq (by rw [h]; rfl))))
    · exact Or.inl (Or.inl (Or.inr (char_eq_of_toNat_eq (by rw [h]; rfl))))
    · exact Or.inl (Or.inr (char_eq_of_toNat_eq (by rw [h]; rfl)))
    · exact Or.inr (char_eq_of_toNat_eq (by rw [h]; rfl))

/-- Python `str.replace` with arguments space and underscore, on one character. -/
def replChar (c : Char) : Char :=
  if c == ' ' then '_' else c

theorem replChar_toNat (c : Char) :
    (replChar c).toNat = if c.toNat = 32 then 95 else c.toNat := by
  unfold replChar
  by_cases h : c = ' '
  · subst h
    rfl
  · rw [if_neg (by simpa using h), if_neg ?_]
    intro h32
    exact h (char_eq_of_toNat_eq (by rw [h32]; rfl))

/-- Python `str.upper()` (ASCII range, the only one the validated category
names can contain). -/
def pyUpper (l : List Char) : List Char :=
  l.map Char.toUpper

/-- Python `str.replace(' ', '_')`. -/
def pyReplaceSpace (l : List Char) : List Char :=
  l.map replChar

/-- The canonicalization rule of §3:
`uppercase(trim(display_name)).replace(' ', '_')`, exactly the
`display_name.strip()` / `.upper().replace(' ', '_')` pipeline of
`categories.post_category`. -/
def canonKey (l : List Char) : List Char :=
  pyReplaceSpace (pyUpper (pyStrip l))

/-- The map `canonKey` on `String`s. -/
def canonKeyS (s : String) : String :=
  ⟨canonKey s.data⟩

/-- The character transformation applied pointwise after the trim. -/
def canonChar (c : Char) : Char :=
  replChar (Char.toUpper c)

theorem canonKey_eq_map (l : List Char) :
    canonKey l = (pyStrip l).map canonChar := by
  unfold canonKey pyReplaceSpace pyUpper
  rw [List.map_map]
  rfl

theorem canonChar_toNat (c : Char) :
    (canonChar c).toNat =
      if 97 ≤ c.toNat ∧ c.toNat ≤ 122 then c.toNat - 32
      else if c.toNat = 32 then 95 else c.toNat := by
  unfold canonChar
  rw [replChar_toNat, toUpper_toNat]
  split_ifs with h1 h2 h3 <;> omega

theorem canonChar_idem (c : Char) : canonChar (canonChar c) = canonChar c := by
  apply char_eq_of_toNat_eq
  rw [canonChar_toNat (canonChar c), canonChar_toNat c]
  split_ifs <;> omega

theorem canonChar_not_ws {c : Char} (h : c.isWhitespace = false) :
    (canonChar c).isWhitespace = false := by
  rw [Bool.eq_false_iff]
  intro hws
  have h1 := (isWhitespace_iff _).mp hws
  rw [canonChar_toNat] at h1
  have h2 : ¬(c.isWhitespace = true) := by simp [h]
  rw [isWhitespace_iff] at h2
  split_ifs at h1 <;> omega

theorem head?_dropWhile_false {α : Type} (p : α → Bool) (l : List α) :
    ∀ x ∈ (l.dropWhile p).head?, p x = false := by
  intro x hx
  have h := List.head?_dropWhile_not p l
  cases hh : (l.dropWhile p).head? with
  | none => simp [hh] at hx
  | some y =>
    rw [hh] at h hx
    simp only [Option.mem_def, Option.some.injEq] at hx
    exact hx ▸ h

theorem getLast?_dropWhile {α : Type} (p : α → Bool) :
    ∀ l : List α, l.dropWhile p ≠ [] → (l.dropWhile p).getLast? = l.getLast? := by
  intro l
  induction l with
  | nil => intro h; exact absurd rfl h
  | cons x xs ih =>
    intro h
    rw [List.dropWhile_cons] at h ⊢
    split_ifs at h ⊢ with hp
    · cases xs with
      | nil => exact absurd rfl h
      | cons y ys => rw [ih h, List.getLast?_cons_cons]
    · rfl

/-- Both edges of a trimmed list are non-whitespace. -/
theorem pyStrip_edges (l : List Char) :
    (∀ x ∈ (pyStrip l).head?, x.isWhitespace = false) ∧
    (∀ x ∈ (pyStrip l).reverse.head?, x.isWhitespace = false) := by
  unfold pyStrip
  constructor
  · intro x hx
    by_cases hnil :
        ((l.dropWhile Char.isWhitespace).reverse.dropWhile Char.isWhitespace) = []
    · rw [hnil] at hx
      simp at hx
    · rw [List.head?_reverse, getLast?_dropWhile _ _ hnil,
        List.getLast?_reverse] at hx
      exact head?_dropWhile_false _ _ x hx
  · intro x hx
    rw [List.reverse_reverse] at hx
    exact head?_dropWhile_false _ _ x hx

/-- Trimming a list whose edges are non-whitespace does nothing. -/
theorem pyStrip_eq_self {l : List Char}
    (h1 : ∀ x ∈ l.head?, x.isWhitespace = false)
    (h2 : ∀ x ∈ l.reverse.head?, x.isWhitespace = false) :
    pyStrip l = l := by
  unfold pyStrip
  have hdw : l.dropWhile Char.isWhitespace = l := by
    cases l with
    | nil => rfl
    | cons x xs =>
      rw [List.dropWhile_cons_of_neg]
      simp [h1 x (by simp)]
  rw [hdw]
  have hdw2 : l.reverse.dropWhile Char.isWhitespace = l.reverse := by
    cases hrev : l.reverse with
    | nil => rfl
    | cons x xs =>
      rw [List.dropWhile_cons_of_neg]
      simp [h2 x (by rw [hrev]; simp)]
  rw [hdw2, List.reverse_reverse]

theorem canonKey_edges (l : List Char) :
    (∀ x ∈ (canonKey l).head?, x.isWhitespace = false) ∧
    (∀ x ∈ (canonKey l).reverse.head?, x.isWhitespace = false) := by
  rw [canonKey_eq_map]
  obtain ⟨h1, h2⟩ := pyStrip_edges l
  constructor
  · intro x hx
    rw [List.head?_map] at hx
    cases hh : (pyStrip l).head? with
    | none => simp [hh] at hx
    | some y =>
      rw [hh] at hx
      simp only [Option.map_some', Option.mem_def, Option.some.injEq] at hx
      exact hx ▸ canonChar_not_ws (h1 y (by simp [hh]))
  · intro x hx
    rw [← List.map_reverse, List.head?_map] at hx
    cases hh : (pyStrip l).reverse.head? with
    | none => simp [hh] at hx
    | some y =>
      rw [hh] at hx
      simp only [Option.map_some', Option.mem_def, Option.some.injEq] at hx
      exact hx ▸ canonChar_not_ws (h2 y (by simp [hh]))

/-- Canonicalization is idempotent (first half of C8). -/
theorem canonKey_idem (l : List Char) : canonKey (canonKey l) = canonKey l := by
  conv_lhs => rw [canonKey_eq_map (canonKey l)]
  obtain ⟨h1, h2⟩ := canonKey_edges l
  rw [pyStrip_eq_self h1 h2, canonKey_eq_map l, List.map_map]
  apply List.map_congr_left
  intro c _
  exact canonChar_idem c

/-- A row of `system_categories` (`name` is the canonical key). -/
structure SysCat where
  id : Nat
  name : String
  display_name : String
deriving DecidableEq, Repr

/-- A row of `user_categories`. -/
structure UserCat where
  id : Nat
  user_id : Nat
  name : String
  display_name : String
deriving DecidableEq, Repr

/-- The category part of the persistent store. -/
structure CatStore where
  systemCats : List SysCat
  userCats : List UserCat
  nextId : Nat
deriving DecidableEq, Repr

/-- The two distinguishable conflict kinds raised by
`database.create_user_category` ("already exists as a system category"
versus "User already has category"). -/
inductive CatConflict where
  | systemConflict
  | userConflict
deriving DecidableEq, Repr

/-- Embeds `database.create_user_category`: pre-check the canonical name against all
system categories, then against the same user's categories, raising the
respective `IntegrityError` without touching the store; otherwise insert. -/
def create_user_category (uid : Nat) (name display_name : String)
    (s : CatStore) : CatStore × Except CatConflict Nat :=
  if s.systemCats.any (fun c => c.name == name) then
    (s, .error .systemConflict)
  else if s.userCats.any (fun c => c.user_id == uid && c.name == name) then
    (s, .error .userConflict)
  else
    ({ s with
        userCats := s.userCats ++ [⟨s.nextId, uid, name, display_name⟩]
        nextId := s.nextId + 1 },
     .ok s.nextId)

/-- The `^[a-zA-Z0-9 ]+$` allow-list of `categories.post_category`. -/
def validCatName (s : String) : Bool :=
  !(s == "") && s.data.all (fun c => c.isAlpha || c.isDigit || c == ' ')

/-- Embeds `categories.post_category` (the `POST /categories` route): strip the
display name, validate length and character set, canonicalize
(`.upper().replace(' ', '_')` on the stripped name), then create; an
`IntegrityError` surfaces as HTTP 409. -/
def post_category (uid : Nat) (display_name_raw : String) (s : CatStore) :
    CatStore × Except Nat Nat :=
  let display_name := pyStripS display_name_raw
  if 100 < display_name.length then (s, .error 400)
  else if !(validCatName display_name) then (s, .error 400)
  else
    let normalized : String := ⟨pyReplaceSpace (pyUpper display_name.data)⟩
    match create_user_category uid normalized display_name s with
    | (s', .ok cid) => (s', .ok cid)
    | (s', .error _) => (s', .error 409)

/-- The canonical key computed by `post_category` is `canonKeyS` of the raw
display name. -/
theorem post_category_normalized (raw : String) :
    (⟨pyReplaceSpace (pyUpper (pyStripS raw).data)⟩ : String) = canonKeyS raw :=
  rfl

/-- C6. Category creation conflicts: when the canonical key of the (already
validated) display name collides with a system category key, creation is
rejected with the system-conflict kind and the store is unchanged; when it
collides only with a category of the same user, it is rejected with the
distinct user-conflict kind and the store is unchanged (the route maps both
to HTTP 409); and when it collides with neither — in particular when only
other users own the same key — creation succeeds and inserts the row. -/
theorem category_creation_conflicts (uid : Nat) (raw : String) (s : CatStore)
    (hlen : (pyStripS raw).length ≤ 100)
    (hval : validCatName (pyStripS raw) = true) :
    (s.systemCats.any (fun c => c.name == canonKeyS raw) = true →
      create_user_category uid (canonKeyS raw) (pyStripS raw) s =
        (s, .error .systemConflict) ∧
      post_category uid raw s = (s, .error 409)) ∧
    (s.systemCats.any (fun c => c.name == canonKeyS raw) = false →
      s.userCats.any
        (fun c => c.user_id == uid && c.name == canonKeyS raw) = true →
      create_user_category uid (canonKeyS raw) (pyStripS raw) s =
        (s, .error .userConflict) ∧
      post_category uid raw s = (s, .error 409)) ∧
    (s.systemCats.any (fun c => c.name == canonKeyS raw) = false →
      s.userCats.any
        (fun c => c.user_id == uid && c.name == canonKeyS raw) = false →
      post_category uid raw s =
        ({ s with
            userCats := s.userCats ++
              [⟨s.nextId, uid, canonKeyS raw, pyStripS raw⟩]
            nextId := s.nextId + 1 },
         .ok s.nextId)) ∧
    CatConflict.systemConflict ≠ CatConflict.userConflict := by
  have hroute : post_category uid raw s =
      (match create_user_category uid (canonKeyS raw) (pyStripS raw) s with
        | (s', .ok cid) => (s', .ok cid)
        | (s', .error _) => (s', .error 409)) := by
    unfold post_category
    rw [if_neg (by omega), if_neg (by simp [hval])]
    rfl
  refine ⟨?_, ?_, ?_, by decide⟩
  · intro hsys
    have hc : create_user_category uid (canonKeyS raw) (pyStripS raw) s =
        (s, .error .systemConflict) := by
      unfold create_user_category
      rw [if_pos hsys]
    exact ⟨hc, by rw [hroute, hc]⟩
  · intro hsys husr
    have hc : create_user_category uid (canonKeyS raw) (pyStripS raw) s =
        (s, .error .userConflict) := by
      unfold create_user_category
      rw [if_neg (by simp [hsys]), if_pos husr]
    exact ⟨hc, by rw [hroute, hc]⟩
  · intro hsys husr
    have hc : create_user_category uid (canonKeyS raw) (pyStripS raw) s =
        ({ s with
            userCats := s.userCats ++
              [⟨s.nextId, uid, canonKeyS raw, pyStripS raw⟩]
            nextId := s.nextId + 1 },
         .ok s.nextId) := by
      unfold create_user_category
      rw [if_neg (by simp [hsys]), if_neg (by simp [husr])]
    rw [hroute, hc]

/-- Witness for C6: user 2 already owns key `GYM`, yet user 1 creating
`gym` succeeds (a different user's identically-keyed category is not a
conflict); the same store rejects a name colliding with the system key
`FOOD`. -/
theorem category_creation_conflicts_witness :
    post_category 1 "gym"
        ⟨[⟨1, "FOOD", "Food"⟩], [⟨7, 2, "GYM", "gym"⟩], 8⟩ =
      (⟨[⟨1, "FOOD", "Food"⟩],
        [⟨7, 2, "GYM", "gym"⟩, ⟨8, 1, "GYM", "gym"⟩], 9⟩, .ok 8) ∧
    post_category 1 "Food"
        ⟨[⟨1, "FOOD", "Food"⟩], [⟨7, 2, "GYM", "gym"⟩], 8⟩ =
      (⟨[⟨1, "FOOD", "Food"⟩], [⟨7, 2, "GYM", "gym"⟩], 8⟩, .error 409) := by
  constructor
  · exact (category_creation_conflicts 1 "gym"
      ⟨[⟨1, "FOOD", "Food"⟩], [⟨7, 2, "GYM", "gym"⟩], 8⟩
      (by decide) (by decide)).2.2.1 (by decide) (by decide)
  · exact ((category_creation_conflicts 1 "Food"
      ⟨[⟨1, "FOOD", "Food"⟩], [⟨7, 2, "GYM", "gym"⟩], 8⟩
      (by decide) (by decide)).1 (by decide)).2

/-- C8. Canonicalization is idempotent for every character sequence;
`"Coffee Shop"` and `"coffee shop"` both canonicalize to `"COFFEE_SHOP"`;
and after the first of the two is created, a second creation of the other
variant by the same user is rejected as a 409 Conflict, store unchanged. -/
theorem canonicalization_idempotent :
    (∀ l : List Char, canonKey (canonKey l) = canonKey l) ∧
    canonKeyS "Coffee Shop" = "COFFEE_SHOP" ∧
    canonKeyS "coffee shop" = "COFFEE_SHOP" ∧
    post_category 1 "coffee shop"
        (post_category 1 "Coffee Shop" ⟨[], [], 1⟩).1 =
      ((post_category 1 "Coffee Shop" ⟨[], [], 1⟩).1, .error 409) := by
  refine ⟨canonKey_idem, by decide, by decide, by rfl⟩

/-- Python `heapq.merge` on two string iterables: the stable two-way sorted merge
`categories.get_categories` applies (an item is taken from the second
iterable only when strictly smaller; comparison is Python string order,
code-point lexicographic, matching `lexLt`). -/
def heapqMerge : List String → List String → List String
  | [], ys => ys
  | x :: xs, [] => x :: xs
  | x :: xs, y :: ys =>
    if lexLt y.data x.data then y :: heapqMerge (x :: xs) ys
    else x :: heapqMerge xs (y :: ys)
termination_by a b => a.length + b.length

/-- The `get_system_categories` that is live at import time: `database.py`
defines the function twice and the second definition (lines 391–406)
shadows the first; its SQL text
`SELECT id, name, display_name, FROM system_categories ...` has a stray
comma before `FROM`, so every call raises `sqlite3.OperationalError`. -/
def get_system_categories_shadowing (s : CatStore) :
    Except String (List String) :=
  .error "sqlite3.OperationalError: near FROM : syntax error"

/-- The call `get_user_categories()` in `categories.get_categories`
(line 27): the function requires its `user_id` parameter, so the call as
written raises `TypeError` before reaching the database. -/
def get_user_categories_missing_arg : Except String (List String) :=
  .error "TypeError: get_user_categories missing 1 required positional argument"

/-- Embeds `categories.get_categories` (the `GET /categories` route): each fetch is
wrapped in a `try/except` that turns any exception into an HTTP 500; only if
both succeed are the two pre-sorted listings merged with `heapq.merge`. -/
def get_categories (s : CatStore) : Except Nat (List String) :=
  match get_system_categories_shadowing s with
  | .error _ => .error 500
  | .ok system_names =>
    match get_user_categories_missing_arg with
    | .error _ => .error 500
    | .ok user_names => .ok (heapqMerge system_names user_names)

/-- C9 (code bug). The combined category listing never produces the merged
sequence: for every store the route answers HTTP 500 (the live
`get_system_categories` runs malformed SQL, and the user-category fetch is
invoked without its required `user_id` argument), while the merge the code
intends — `heapq.merge` of the two pre-sorted listings — would give the
spec's `["FOOD", "GYM", "TRAVEL"]` on the spec's example inputs and in
particular never equals it through the route. -/
theorem combined_listing_always_500 :
    (∀ s : CatStore, get_categories s = .error 500) ∧
    heapqMerge ["FOOD", "TRAVEL"] ["GYM"] = ["FOOD", "GYM", "TRAVEL"] ∧
    get_categories ⟨[⟨1, "FOOD", "FOOD"⟩, ⟨2, "TRAVEL", "TRAVEL"⟩],
        [⟨3, 1, "GYM", "GYM"⟩], 4⟩ ≠
      .ok ["FOOD", "GYM", "TRAVEL"] := by
  refine ⟨fun s => rfl, by simp [heapqMerge, lexLt], ?_⟩
  intro h
  exact absurd h (by simp [get_categories, get_system_categories_shadowing])

end Kakeibo
